import Mathlib

/-!
# Raft log sideloading subsystem — verification development

This file embeds the Raft log sideloading subsystem of the repository
(sideload storage, entry codec, sideloading and inlining pipelines,
snapshot integration) and proves the spec's quantified invariants about it.

The repository ships the subsystem's test files
(TestSideloadingSideloadedStorage, TestRaftSSTableSideloadingSideload,
TestRaftSSTableSideloadingInline, TestRaftSSTableSideloadingSnapshot, ...),
while the implementation files themselves (the sideloadStorage interface with
its in-memory and on-disk variants, encodeRaftCommand / DecodeRaftCommand /
sniffSideloadedRaftCommand, maybeSideloadEntriesImpl and
maybeInlineSideloadedRaftCommand) are not part of the source tree given here.
The definitions below therefore model those operations from the spec
(sections 3, 4.1-4.5), and where the spec and the shipped tests disagree the
tests win (they are repository code); each such point is called out next to
the definition concerned.

Conventions of the embedding:
- byte strings are `List Nat` (byte-level arithmetic never matters here);
- Go maps and directories become association lists with explicit overwrite;
- fallible operations return `Except SideloadErr`; stateful operations
  return the new state explicitly.
-/

set_option autoImplicit false

deriving instance DecidableEq for Except

namespace Sideload

/-- Byte strings of the model: payloads, envelopes, command ids. -/
abbrev Bytes := List Nat

/-! ## Association lists (the model of Go maps and of directory contents) -/

/-- Lookup of the first binding of key `k`. -/
def assocGet {κ α : Type} [DecidableEq κ] (k : κ) : List (κ × α) → Option α
  | [] => none
  | (k', v) :: rest => if k' = k then some v else assocGet k rest

/-- Remove every binding of key `k`. -/
def assocRemove {κ α : Type} [DecidableEq κ] (k : κ) : List (κ × α) → List (κ × α)
  | [] => []
  | (k', v) :: rest =>
    if k' = k then assocRemove k rest else (k', v) :: assocRemove k rest

/-- Insert a binding for `k`, overwriting any existing one. -/
def assocPut {κ α : Type} [DecidableEq κ] (k : κ) (v : α) (l : List (κ × α)) :
    List (κ × α) :=
  (k, v) :: assocRemove k l

theorem assocGet_remove_self {κ α : Type} [DecidableEq κ] (k : κ)
    (l : List (κ × α)) : assocGet k (assocRemove k l) = none := by
  induction l with
  | nil => rfl
  | cons kv rest ih =>
    obtain ⟨k', v⟩ := kv
    by_cases h : k' = k <;> simp [assocRemove, assocGet, h, ih]

theorem assocGet_remove_other {κ α : Type} [DecidableEq κ] {k k' : κ}
    (h : k' ≠ k) (l : List (κ × α)) :
    assocGet k' (assocRemove k l) = assocGet k' l := by
  induction l with
  | nil => rfl
  | cons kv rest ih =>
    obtain ⟨k'', v⟩ := kv
    by_cases h1 : k'' = k
    · subst h1
      simp [assocRemove, assocGet, Ne.symm h, ih]
    · by_cases h2 : k'' = k' <;> simp [assocRemove, assocGet, h1, h2, h, ih]

theorem assocGet_put_self {κ α : Type} [DecidableEq κ] (k : κ) (v : α)
    (l : List (κ × α)) : assocGet k (assocPut k v l) = some v := by
  simp [assocPut, assocGet]

theorem assocGet_put_other {κ α : Type} [DecidableEq κ] {k k' : κ}
    (h : k' ≠ k) (v : α) (l : List (κ × α)) :
    assocGet k' (assocPut k v l) = assocGet k' l := by
  simp [assocPut, assocGet, Ne.symm h, assocGet_remove_other h]

/-- Lookup through a filter whose predicate only inspects the key. -/
theorem assocGet_filter {κ α : Type} [DecidableEq κ] (k : κ) (p : κ → Bool)
    (l : List (κ × α)) :
    assocGet k (l.filter (fun kv => p kv.1)) =
      if p k then assocGet k l else none := by
  induction l with
  | nil => simp [assocGet]
  | cons kv rest ih =>
    obtain ⟨k', v⟩ := kv
    by_cases hk : k' = k
    · subst hk
      cases hp : p k' <;> simp [assocGet, hp, ih]
    · cases hp : p k' <;> simp [assocGet, hk, hp, ih]

/-! ## Entry codec (spec section 4.1)

Modelled from the spec: `data = version_tag || command_id || command_bytes`
with a one-byte version tag and a fixed-width command id, exactly the layout
the tests exercise through `mkEnt` / `encodeRaftCommand` / `DecodeRaftCommand`.
-/

/-- The envelope version of a Raft command: `Standard` or `Sideloaded`. -/
inductive raftCommandEncodingVersion : Type
  | standard
  | sideloaded
deriving DecidableEq, Repr

/-- The one-byte version tag heading the envelope. -/
def raftVersionByte : raftCommandEncodingVersion → Nat
  | .standard => 0
  | .sideloaded => 1

/-- Width of the command id window in the envelope. -/
def raftCommandIDLen : Nat := 8

/-- Modelled from the spec: write the version tag, the command id and the
command bytes verbatim. -/
def encodeRaftCommand (v : raftCommandEncodingVersion) (cmdID : Bytes)
    (command : Bytes) : Bytes :=
  raftVersionByte v :: (cmdID ++ command)

/-- Modelled from the spec: inverse of `encodeRaftCommand`; the command id
occupies a fixed window after the version byte. -/
def DecodeRaftCommand (data : Bytes) : Bytes × Bytes :=
  ((data.drop 1).take raftCommandIDLen, data.drop (1 + raftCommandIDLen))

/-- Modelled from the spec: inspect only the version tag. -/
def sniffSideloadedRaftCommand (data : Bytes) : Bool :=
  data.head? == some (raftVersionByte .sideloaded)

theorem sniff_encode_standard (cmdID command : Bytes) :
    sniffSideloadedRaftCommand
      (encodeRaftCommand .standard cmdID command) = false := by
  simp [sniffSideloadedRaftCommand, encodeRaftCommand, raftVersionByte]

theorem sniff_encode_sideloaded (cmdID command : Bytes) :
    sniffSideloadedRaftCommand
      (encodeRaftCommand .sideloaded cmdID command) = true := by
  simp [sniffSideloadedRaftCommand, encodeRaftCommand, raftVersionByte]

theorem decode_encode (v : raftCommandEncodingVersion) {cmdID : Bytes}
    (command : Bytes) (h : cmdID.length = raftCommandIDLen) :
    DecodeRaftCommand (encodeRaftCommand v cmdID command) = (cmdID, command) := by
  unfold DecodeRaftCommand encodeRaftCommand
  rw [Nat.add_comm 1 raftCommandIDLen, ← h]
  simp [List.take_left, List.drop_left, List.drop_succ_cons]

/-! ## Replicated command (spec section 3)

The replicated command internally contains an optional bulk-ingest
sub-message with a `data` field (the sideloadable payload) and a checksum.
The spec leaves the wire encoding of commands out of scope ("the subsystem
does not define the wire encoding of the higher-level replicated commands");
`marshalRaftCommand` below is an explicit injective stand-in serialization
with an executable inverse.
-/

/-- The bulk-ingest sub-message: payload bytes plus a checksum field. -/
structure ReplicatedEvalResultAddSSTable : Type where
  data : Bytes
  crc32 : Nat
deriving DecidableEq, Repr

/-- The replicated command: an optional bulk-ingest sub-message. -/
structure RaftCommand : Type where
  addSSTable : Option ReplicatedEvalResultAddSSTable
deriving DecidableEq, Repr

/-- Modelled from the spec: serialization of a replicated command
(stand-in for the out-of-scope protobuf encoding; injective, see
`unmarshal_marshal`). -/
def marshalRaftCommand : RaftCommand → Bytes
  | ⟨none⟩ => [0]
  | ⟨some as⟩ => 1 :: as.data.length :: as.crc32 :: as.data

/-- Modelled from the spec: deserialization, inverse of `marshalRaftCommand`. -/
def unmarshalRaftCommand : Bytes → Option RaftCommand
  | [0] => some ⟨none⟩
  | 1 :: n :: crc :: rest => if rest.length = n then some ⟨some ⟨rest, crc⟩⟩ else none
  | _ => none

theorem unmarshal_marshal (cmd : RaftCommand) :
    unmarshalRaftCommand (marshalRaftCommand cmd) = some cmd := by
  obtain ⟨as⟩ := cmd
  cases as with
  | none => rfl
  | some a => simp [marshalRaftCommand, unmarshalRaftCommand]

/-! ## Raft entries -/

/-- A Raft entry: index, term, and the framed envelope in `data`. -/
structure Entry : Type where
  index : Nat
  term : Nat
  data : Bytes
deriving DecidableEq, Repr

/-- An entry whose envelope carries version `v`, command id `cmdID` and the
serialized command `cmd` (the well-formed entries; `mkEnt` of the tests). -/
def entWithCmd (v : raftCommandEncodingVersion) (cmdID : Bytes)
    (index term : Nat) (cmd : RaftCommand) : Entry :=
  { index := index, term := term,
    data := encodeRaftCommand v cmdID (marshalRaftCommand cmd) }

/-- The test helper `mkEnt`: command id is eight `x` bytes. -/
def mkEnt (v : raftCommandEncodingVersion) (index term : Nat)
    (as : Option ReplicatedEvalResultAddSSTable) : Entry :=
  entWithCmd v (List.replicate raftCommandIDLen 120) index term ⟨as⟩

/-! ## Errors (spec section 7) -/

/-- Errors of the sideload storage and pipelines. `notFound` is
`errSideloadedFileNotFound`; `dirNotEmpty` carries the identity of the
directory that could not be removed (its path is a deterministic function of
that identity); `decodeError` covers envelope or command decoding failures. -/
inductive SideloadErr : Type
  | notFound
  | dirNotEmpty (dir : Nat × Nat)
  | decodeError
deriving DecidableEq, Repr

/-- The sentinel returned by `Get`, `Purge` (and, per the spec's table,
`Filename`) on an absent key. -/
def errSideloadedFileNotFound : SideloadErr := .notFound

/-! ## Sideload storage, in-memory variant (spec section 4.2)

Modelled from the spec: a mapping from `(index, term)` to an owned byte
buffer with the same externally observable semantics as the disk variant but
no directory behavior; `Filename` returns a sentinel. The shipped test
(`testSideloadingSideloadedStorage`, run with `newInMemSideloadStorage`)
pins every behavior modelled here, including that `Filename` on an absent
key succeeds (test table entry with expected error `nil`).
-/

/-- A sideloaded payload key: `(index, term)`. -/
abbrev SKey := Nat × Nat

/-- The in-memory sideload storage: a map from `(index, term)` to payload. -/
structure InMemSideloadStorage : Type where
  m : List (SKey × Bytes)
deriving DecidableEq, Repr

/-- A freshly constructed (empty) in-memory storage. -/
def memEmpty : InMemSideloadStorage := ⟨[]⟩

/-- Put: overwrites any existing payload at `(index, term)`. -/
def memPut (index term : Nat) (b : Bytes) (ss : InMemSideloadStorage) :
    InMemSideloadStorage :=
  ⟨assocPut (index, term) b ss.m⟩

/-- Get: the payload at `(index, term)`, or `notFound`. -/
def memGet (index term : Nat) (ss : InMemSideloadStorage) :
    Except SideloadErr Bytes :=
  match assocGet (index, term) ss.m with
  | some b => .ok b
  | none => .error errSideloadedFileNotFound

/-- Purge: delete one entry; `notFound` if absent. -/
def memPurge (index term : Nat) (ss : InMemSideloadStorage) :
    Except SideloadErr InMemSideloadStorage :=
  match assocGet (index, term) ss.m with
  | some _ => .ok ⟨assocRemove (index, term) ss.m⟩
  | none => .error errSideloadedFileNotFound

/-- TruncateTo: delete all payloads with `index < firstIndex` at every term;
returns the freed byte count. -/
def memTruncateTo (firstIndex : Nat) (ss : InMemSideloadStorage) :
    InMemSideloadStorage × Nat :=
  (⟨ss.m.filter (fun kv => !decide (kv.1.1 < firstIndex))⟩,
   ((ss.m.filter (fun kv => decide (kv.1.1 < firstIndex))).map
      (fun kv => kv.2.length)).sum)

/-- Clear: remove all entries. -/
def memClear (_ : InMemSideloadStorage) : InMemSideloadStorage := ⟨[]⟩

/-- Filename for the in-memory variant: a sentinel, with no error (the test
expects a `nil` error from `Filename` on an absent key). -/
def memFilename (_index _term : Nat) : Except SideloadErr Bytes := .ok []

/-! ## Sideload storage, on-disk variant (spec section 4.2)

Modelled from the spec: per-replica directory trees over a shared base
directory. The directory of an instance is a deterministic function of its
identity `(range_id, replica_id)` (spec section 6: the exact string is
`<base>/sideload_<range_id>_<replica_id>`), so directories and payload file
paths are represented here by the identity, respectively the identity paired
with the `(index, term)` key, that determine them. The shared filesystem
also records foreign (non-payload) files per directory, and which
directories exist.
-/

/-- The identity of a sideload storage instance: `(range_id, replica_id)`. -/
abbrev Ident := Nat × Nat

/-- The shared filesystem under the replica base directory: payload files
(keyed by directory identity and payload key), foreign files (directory
identity and name), and the set of existing sideload directories. -/
structure FS : Type where
  files : List ((Ident × SKey) × Bytes)
  foreign : List (Ident × Bytes)
  dirs : List Ident
deriving DecidableEq, Repr

/-- The filesystem before any sideload activity. -/
def fsEmpty : FS := ⟨[], [], []⟩

/-- Put for the disk variant: ensures the backing directory exists, then
writes (rename-over-existing, so the key is overwritten atomically). -/
def diskPut (id : Ident) (index term : Nat) (b : Bytes) (fs : FS) : FS :=
  { fs with
    files := assocPut (id, (index, term)) b fs.files,
    dirs := fs.dirs.insert id }

/-- Get for the disk variant: never creates or checks the directory; an
absent payload file is `notFound`. -/
def diskGet (id : Ident) (index term : Nat) (fs : FS) :
    Except SideloadErr Bytes :=
  match assocGet (id, (index, term)) fs.files with
  | some b => .ok b
  | none => .error errSideloadedFileNotFound

/-- Purge for the disk variant: deletes one payload file; `notFound` if
absent; never removes (or creates) the directory. -/
def diskPurge (id : Ident) (index term : Nat) (fs : FS) :
    Except SideloadErr FS :=
  match assocGet (id, (index, term)) fs.files with
  | some _ => .ok { fs with files := assocRemove (id, (index, term)) fs.files }
  | none => .error errSideloadedFileNotFound

/-- The payload files surviving a truncation of instance `id` to
`firstIndex`: files of other instances, and files of `id` with an index at
or above `firstIndex` (truncation is exclusive of its argument and applies
at every term). -/
def dirKeepFiles (id : Ident) (firstIndex : Nat) (fs : FS) :
    List ((Ident × SKey) × Bytes) :=
  fs.files.filter (fun kv => !decide (kv.1.1 = id ∧ kv.1.2.1 < firstIndex))

/-- The total payload bytes a truncation of instance `id` frees. -/
def dirFreedBytes (id : Ident) (firstIndex : Nat) (fs : FS) : Nat :=
  ((fs.files.filter
      (fun kv => decide (kv.1.1 = id ∧ kv.1.2.1 < firstIndex))).map
        (fun kv => kv.2.length)).sum

/-- TruncateTo for the disk variant: a no-op if the directory does not
exist; otherwise deletes every payload of this instance with
`index < firstIndex` (at every term) and, if no payload remains, removes the
directory — failing with `dirNotEmpty` (naming the directory) when a foreign
file is still in it, the payloads being deleted all the same. Returns the
freed byte count. -/
def diskTruncateTo (id : Ident) (firstIndex : Nat) (fs : FS) :
    FS × Except SideloadErr Nat :=
  if id ∈ fs.dirs then
    if ((dirKeepFiles id firstIndex fs).filter
          (fun kv => decide (kv.1.1 = id))).isEmpty then
      if (fs.foreign.filter (fun kv => decide (kv.1 = id))).isEmpty then
        ({ files := dirKeepFiles id firstIndex fs,
           foreign := fs.foreign,
           dirs := fs.dirs.filter (fun d => !decide (d = id)) },
         .ok (dirFreedBytes id firstIndex fs))
      else
        ({ fs with files := dirKeepFiles id firstIndex fs },
         .error (.dirNotEmpty id))
    else
      ({ fs with files := dirKeepFiles id firstIndex fs },
       .ok (dirFreedBytes id firstIndex fs))
  else (fs, .ok 0)

/-- Clear for the disk variant: removes all of the instance's files and its
directory. -/
def diskClear (id : Ident) (fs : FS) : FS :=
  { files := fs.files.filter (fun kv => !decide (kv.1.1 = id)),
    foreign := fs.foreign.filter (fun kv => !decide (kv.1 = id)),
    dirs := fs.dirs.filter (fun d => !decide (d = id)) }

/-- Filename for the disk variant: the deterministic path of the payload
file for `(index, term)` (represented by its determining components). Per
the shipped test (`testSideloadingSideloadedStorage`, table entry expecting
a `nil` error after `Clear`), `Filename` does not check that the payload
exists and never fails — the spec's table, which lists `NotFound` as its
error, disagrees with the test on this point, and the test wins. -/
def diskFilename (id : Ident) (index term : Nat) (_ : FS) :
    Except SideloadErr (Ident × SKey) :=
  .ok (id, (index, term))

/-- The caller-side removal of a directory's foreign files (the test's
`os.Remove(nonRemovableFile)` step before retrying `TruncateTo`). -/
def removeForeign (id : Ident) (fs : FS) : FS :=
  { fs with foreign := fs.foreign.filter (fun kv => !decide (kv.1 = id)) }

/-! ## Raft entry cache (external collaborator, spec section 6) -/

/-- The Raft entry cache: recently seen entries keyed by
`(range_id, index)`. -/
structure RaftEntryCache : Type where
  m : List ((Nat × Nat) × Entry)
deriving DecidableEq, Repr

/-- An empty entry cache. -/
def emptyCache : RaftEntryCache := ⟨[]⟩

/-- Add one entry to the cache under `(rangeID, entry.index)`. -/
def cacheAddEntry (rangeID : Nat) (e : Entry) (c : RaftEntryCache) :
    RaftEntryCache :=
  ⟨assocPut (rangeID, e.index) e c.m⟩

/-- The cached entry at `(rangeID, index)`, if any. -/
def getCachedEntry (rangeID index : Nat) (c : RaftEntryCache) : Option Entry :=
  assocGet (rangeID, index) c.m

/-! ## Sideloading pipeline (spec section 4.3)

Modelled from the spec: iterate the batch in order; entries whose envelope
is not `Sideloaded` are forwarded unchanged; otherwise decode the envelope,
prefer the in-memory command supplied by the `maybeCmd` callback, strip a
non-empty ingest payload into the storage under `(index, term)`, re-marshal
and re-encode a thin copy, and accumulate the stripped byte count.
-/

/-- The `maybeRaftCommand` callback used by the sideload tests: no in-memory
command is ever available. -/
def noCmd : Bytes → Option RaftCommand := fun _ => none

/-- One step of the sideloading pipeline on a single entry. Returns the
(possibly thinned) entry, the stripped byte count, and the new storage. -/
def maybeSideloadEntry (maybeCmd : Bytes → Option RaftCommand) (e : Entry)
    (ss : InMemSideloadStorage) :
    Except SideloadErr (Entry × Nat × InMemSideloadStorage) :=
  if sniffSideloadedRaftCommand e.data then
    let dec := DecodeRaftCommand e.data
    match (match maybeCmd dec.1 with
           | some cmd => some cmd
           | none => unmarshalRaftCommand dec.2) with
    | none => .error .decodeError
    | some cmd =>
      match cmd.addSSTable with
      | none => .ok (e, 0, ss)
      | some as =>
        if as.data.isEmpty then .ok (e, 0, ss)
        else
          let newData :=
            encodeRaftCommand .sideloaded dec.1
              (marshalRaftCommand ⟨some ⟨[], as.crc32⟩⟩)
          .ok ({ e with data := newData }, as.data.length,
               memPut e.index e.term as.data ss)
  else .ok (e, 0, ss)

/-- The sideloading pipeline over a batch: ordered, same length, total
stripped bytes accumulated, storage threaded through the `Put`s. -/
def maybeSideloadEntriesImpl (maybeCmd : Bytes → Option RaftCommand) :
    List Entry → InMemSideloadStorage →
    Except SideloadErr (List Entry × Nat × InMemSideloadStorage)
  | [], ss => .ok ([], 0, ss)
  | e :: rest, ss =>
    match maybeSideloadEntry maybeCmd e ss with
    | .error err => .error err
    | .ok (e', sz, ss') =>
      match maybeSideloadEntriesImpl maybeCmd rest ss' with
      | .error err => .error err
      | .ok (rest', szr, ss'') => .ok (e' :: rest', sz + szr, ss'')

/-! ## Inlining pipeline (spec section 4.4)

Modelled from the spec: sniff; decode; an absent ingest sub-message or an
already non-empty payload leaves the entry unchanged; else consult the entry
cache for `(range_id, index)` (a hit requires a matching term) and fall back
to `storage.Get(index, term)`, failing with the missing-sideloaded-payload
`notFound` error when the payload is in neither place; on success splice the
payload back, re-marshal and re-encode.
-/

/-- Single-entry inlining (`maybe_inline`). -/
def maybeInlineSideloadedRaftCommand (rangeID : Nat) (e : Entry)
    (ss : InMemSideloadStorage) (cache : RaftEntryCache) :
    Except SideloadErr Entry :=
  if sniffSideloadedRaftCommand e.data then
    let dec := DecodeRaftCommand e.data
    match unmarshalRaftCommand dec.2 with
    | none => .error .decodeError
    | some cmd =>
      match cmd.addSSTable with
      | none => .ok e
      | some as =>
        if as.data.isEmpty then
          match getCachedEntry rangeID e.index cache with
          | some cachedEnt =>
            if cachedEnt.term = e.term then .ok cachedEnt
            else
              match memGet e.index e.term ss with
              | .error _ => .error errSideloadedFileNotFound
              | .ok payload =>
                let newData :=
                  encodeRaftCommand .sideloaded dec.1
                    (marshalRaftCommand ⟨some ⟨payload, as.crc32⟩⟩)
                .ok { e with data := newData }
          | none =>
            match memGet e.index e.term ss with
            | .error _ => .error errSideloadedFileNotFound
            | .ok payload =>
              let newData :=
                encodeRaftCommand .sideloaded dec.1
                  (marshalRaftCommand ⟨some ⟨payload, as.crc32⟩⟩)
              .ok { e with data := newData }
        else .ok e
  else .ok e

/-- Batch inlining: `maybe_inline` on every entry in order, aborting on the
first error. -/
def inlineEntries (rangeID : Nat) (ss : InMemSideloadStorage)
    (cache : RaftEntryCache) : List Entry → Except SideloadErr (List Entry)
  | [] => .ok []
  | e :: rest =>
    match maybeInlineSideloadedRaftCommand rangeID e ss cache with
    | .error err => .error err
    | .ok e' =>
      match inlineEntries rangeID ss cache rest with
      | .error err => .error err
      | .ok rest' => .ok (e' :: rest')

/-! ## Snapshot integration (spec section 4.5) -/

/-- Errors of the snapshot send path. `mustRetrySnapshotDueToTruncation` is
the typed `errMustRetrySnapshotDueToTruncation` wrapper. -/
inductive SnapshotErr : Type
  | mustRetrySnapshotDueToTruncation
  | other (err : SideloadErr)
deriving DecidableEq, Repr

/-- Modelled from the spec: the snapshot streamer runs every log entry
through `maybe_inline`; a missing payload (`notFound`) fails the whole
snapshot with the typed `MustRetrySnapshotDueToTruncation` error. -/
def inlineSnapshotEntries (rangeID : Nat) (ss : InMemSideloadStorage)
    (cache : RaftEntryCache) (ents : List Entry) :
    Except SnapshotErr (List Entry) :=
  match inlineEntries rangeID ss cache ents with
  | .ok ents' => .ok ents'
  | .error .notFound => .error .mustRetrySnapshotDueToTruncation
  | .error err => .error (.other err)

/-! ## Well-formed entry descriptions

A batch of well-formed Raft entries is described by a list of `ESpec`
values: envelope version, command id, decoded command, index and term.
`especEntry` realizes the description as the (fat) entry, `especThin` as the
entry the sideloading pipeline is specified to produce, and `especPuts` as
the storage writes it is specified to perform.
-/

/-- Description of one well-formed Raft entry. -/
structure ESpec : Type where
  ver : raftCommandEncodingVersion
  cmdID : Bytes
  cmd : RaftCommand
  index : Nat
  term : Nat
deriving DecidableEq, Repr

/-- The entry a description denotes. -/
def especEntry (s : ESpec) : Entry :=
  entWithCmd s.ver s.cmdID s.index s.term s.cmd

/-- The sideload storage key of a description. -/
def especKey (s : ESpec) : SKey := (s.index, s.term)

/-- The sideloadable payload of a description: the ingest payload when the
envelope version is `Sideloaded`, else nothing (`Standard` entries are never
sideloaded). -/
def especPayload (s : ESpec) : Bytes :=
  match s.ver, s.cmd.addSSTable with
  | .sideloaded, some as => as.data
  | _, _ => []

/-- Whether the entry is subject to sideloading: version `Sideloaded` with a
present, non-empty ingest payload (the spec's "fat" entries). -/
def especSideloadable (s : ESpec) : Bool :=
  match s.ver, s.cmd.addSSTable with
  | .sideloaded, some as => !as.data.isEmpty
  | _, _ => false

/-- The checksum field of the ingest sub-message (0 when absent). -/
def especCRC (s : ESpec) : Nat :=
  match s.cmd.addSSTable with
  | some as => as.crc32
  | none => 0

/-- The thin form of an entry: the same entry with the ingest payload field
emptied when the entry is sideloadable, the entry itself otherwise. Thin and
fat differ only in that field (spec invariant 1). -/
def especThin (s : ESpec) : Entry :=
  if especSideloadable s then
    entWithCmd .sideloaded s.cmdID s.index s.term ⟨some ⟨[], especCRC s⟩⟩
  else especEntry s

/-- The storage write the pipeline performs for one entry. -/
def especPut (s : ESpec) (ss : InMemSideloadStorage) : InMemSideloadStorage :=
  if especSideloadable s then memPut s.index s.term (especPayload s) ss else ss

/-- The storage writes the pipeline performs for a batch, in order. -/
def especPuts (xs : List ESpec) (ss : InMemSideloadStorage) :
    InMemSideloadStorage :=
  xs.foldl (fun a s => especPut s a) ss

/-- A description fit for re-inlining: a `Sideloaded` envelope either has no
ingest sub-message or a non-empty payload (a `Sideloaded` entry carrying a
present-but-empty payload would ask the storage for a payload that was never
stripped). -/
def especGood (s : ESpec) : Bool :=
  match s.ver, s.cmd.addSSTable with
  | .sideloaded, some as => !as.data.isEmpty
  | _, _ => true

theorem especPuts_nil (ss : InMemSideloadStorage) : especPuts [] ss = ss := rfl

theorem especPuts_cons (x : ESpec) (xs : List ESpec)
    (ss : InMemSideloadStorage) :
    especPuts (x :: xs) ss = especPuts xs (especPut x ss) := rfl

/-! ## Per-entry behavior of the sideloading pipeline -/

theorem maybeSideloadEntry_especEntry (s : ESpec) (ss : InMemSideloadStorage)
    (h : s.cmdID.length = raftCommandIDLen) :
    maybeSideloadEntry noCmd (especEntry s) ss
      = .ok (especThin s, (especPayload s).length, especPut s ss) := by
  obtain ⟨v, cmdID, cmd, i, t⟩ := s
  obtain ⟨as⟩ := cmd
  cases v with
  | standard =>
    simp [maybeSideloadEntry, especEntry, entWithCmd, sniff_encode_standard, sniff_encode_sideloaded, especThin,
      especSideloadable, especPayload, especPut]
  | sideloaded =>
    have hd := decode_encode .sideloaded (marshalRaftCommand ⟨as⟩) h
    cases as with
    | none =>
      simp [maybeSideloadEntry, especEntry, entWithCmd, sniff_encode_standard, sniff_encode_sideloaded, hd,
        noCmd, unmarshal_marshal, especThin, especSideloadable, especPayload,
        especPut]
    | some a =>
      obtain ⟨d, c⟩ := a
      cases d with
      | nil =>
        simp [maybeSideloadEntry, especEntry, entWithCmd, sniff_encode_standard, sniff_encode_sideloaded, hd,
          noCmd, unmarshal_marshal, especThin, especSideloadable,
          especPayload, especPut]
      | cons b bs =>
        simp [maybeSideloadEntry, especEntry, entWithCmd, sniff_encode_standard, sniff_encode_sideloaded, hd,
          noCmd, unmarshal_marshal, especThin, especSideloadable,
          especPayload, especPut, especCRC, memPut]

/-- The sideloading pipeline on a batch of well-formed entries: every entry
comes back at its position, sideloadable ones thinned, the byte total is the
sum of the stripped payload lengths, and the storage receives exactly the
pipeline's `Put`s. -/
theorem maybeSideloadEntriesImpl_especMap (xs : List ESpec)
    (ss : InMemSideloadStorage)
    (h : ∀ s ∈ xs, s.cmdID.length = raftCommandIDLen) :
    maybeSideloadEntriesImpl noCmd (xs.map especEntry) ss
      = .ok (xs.map especThin,
             (xs.map (fun s => (especPayload s).length)).sum,
             especPuts xs ss) := by
  induction xs generalizing ss with
  | nil => simp [maybeSideloadEntriesImpl, especPuts]
  | cons x rest ih =>
    have hx := maybeSideloadEntry_especEntry x ss (h x (by simp))
    have hrest := ih (especPut x ss) (fun s hs => h s (by simp [hs]))
    simp [maybeSideloadEntriesImpl, hx, hrest, especPuts_cons]

/-! ## What ends up in the storage -/

theorem memGet_especPuts_of_notin (i t : Nat) (xs : List ESpec)
    (ss : InMemSideloadStorage) (h : ∀ s ∈ xs, especKey s ≠ (i, t)) :
    memGet i t (especPuts xs ss) = memGet i t ss := by
  induction xs generalizing ss with
  | nil => rfl
  | cons x rest ih =>
    have hkey : (x.index, x.term) ≠ (i, t) := h x (by simp)
    have hstep : memGet i t (especPut x ss) = memGet i t ss := by
      unfold especPut
      split
      · simp only [memGet, memPut]
        rw [assocGet_put_other (Ne.symm hkey)]
      · rfl
    rw [especPuts_cons, ih _ (fun s hs => h s (by simp [hs])), hstep]

theorem memGet_especPuts_of_mem (xs : List ESpec) (ss : InMemSideloadStorage)
    (hnd : (xs.map especKey).Nodup) (s : ESpec) (hs : s ∈ xs)
    (hsl : especSideloadable s = true) :
    memGet s.index s.term (especPuts xs ss) = .ok (especPayload s) := by
  induction xs generalizing ss with
  | nil => cases hs
  | cons x rest ih =>
    rw [especPuts_cons]
    rcases List.mem_cons.mp hs with rfl | hmem
    · have hnotin : ∀ s' ∈ rest, especKey s' ≠ (s.index, s.term) := by
        intro s' hs' hEq
        have : especKey s ∈ rest.map especKey := by
          rw [show (s.index, s.term) = especKey s from rfl] at hEq
          exact hEq ▸ List.mem_map_of_mem especKey hs'
        exact (List.nodup_cons.mp hnd).1 this
      rw [memGet_especPuts_of_notin _ _ _ _ hnotin]
      unfold especPut
      rw [if_pos hsl]
      simp only [memGet, memPut, assocGet_put_self]
    · exact ih (especPut x ss) (List.nodup_cons.mp hnd).2 hmem

/-! ## Per-entry behavior of the inlining pipeline -/

theorem maybeInline_not_sniffed (rangeID : Nat) (e : Entry)
    (ss : InMemSideloadStorage) (cache : RaftEntryCache)
    (h : sniffSideloadedRaftCommand e.data = false) :
    maybeInlineSideloadedRaftCommand rangeID e ss cache = .ok e := by
  simp [maybeInlineSideloadedRaftCommand, h]

theorem maybeInline_standard (rangeID : Nat) (cmdID : Bytes) (i t : Nat)
    (cmd : RaftCommand) (ss : InMemSideloadStorage) (cache : RaftEntryCache) :
    maybeInlineSideloadedRaftCommand rangeID (entWithCmd .standard cmdID i t cmd)
      ss cache = .ok (entWithCmd .standard cmdID i t cmd) := by
  apply maybeInline_not_sniffed
  simp [entWithCmd, sniff_encode_standard]

theorem maybeInline_no_ingest (rangeID : Nat) (cmdID : Bytes) (i t : Nat)
    (ss : InMemSideloadStorage) (cache : RaftEntryCache)
    (h : cmdID.length = raftCommandIDLen) :
    maybeInlineSideloadedRaftCommand rangeID
      (entWithCmd .sideloaded cmdID i t ⟨none⟩) ss cache
      = .ok (entWithCmd .sideloaded cmdID i t ⟨none⟩) := by
  have hd := decode_encode .sideloaded (marshalRaftCommand ⟨none⟩) h
  simp [maybeInlineSideloadedRaftCommand, entWithCmd, sniff_encode_standard, sniff_encode_sideloaded, hd,
    unmarshal_marshal]

theorem maybeInline_already_inlined (rangeID : Nat) (cmdID : Bytes)
    (i t : Nat) (d : Bytes) (crc : Nat) (ss : InMemSideloadStorage)
    (cache : RaftEntryCache) (h : cmdID.length = raftCommandIDLen)
    (hne : d ≠ []) :
    maybeInlineSideloadedRaftCommand rangeID
      (entWithCmd .sideloaded cmdID i t ⟨some ⟨d, crc⟩⟩) ss cache
      = .ok (entWithCmd .sideloaded cmdID i t ⟨some ⟨d, crc⟩⟩) := by
  have hd := decode_encode .sideloaded
    (marshalRaftCommand ⟨some ⟨d, crc⟩⟩) h
  simp [maybeInlineSideloadedRaftCommand, entWithCmd, sniff_encode_standard, sniff_encode_sideloaded, hd,
    unmarshal_marshal, List.isEmpty_iff, hne]

theorem maybeInline_thin_from_storage (rangeID : Nat) (cmdID : Bytes)
    (i t : Nat) (crc : Nat) (d : Bytes) (ss : InMemSideloadStorage)
    (cache : RaftEntryCache) (h : cmdID.length = raftCommandIDLen)
    (hcache : getCachedEntry rangeID i cache = none)
    (hget : memGet i t ss = .ok d) :
    maybeInlineSideloadedRaftCommand rangeID
      (entWithCmd .sideloaded cmdID i t ⟨some ⟨[], crc⟩⟩) ss cache
      = .ok (entWithCmd .sideloaded cmdID i t ⟨some ⟨d, crc⟩⟩) := by
  have hd := decode_encode .sideloaded
    (marshalRaftCommand ⟨some ⟨[], crc⟩⟩) h
  simp [maybeInlineSideloadedRaftCommand, entWithCmd, sniff_encode_standard, sniff_encode_sideloaded, hd,
    unmarshal_marshal, hcache, hget]

theorem maybeInline_thin_from_cache (rangeID : Nat) (cmdID : Bytes)
    (i t : Nat) (crc : Nat) (ss : InMemSideloadStorage)
    (cache : RaftEntryCache) (fatEnt : Entry)
    (h : cmdID.length = raftCommandIDLen)
    (hcache : getCachedEntry rangeID i cache = some fatEnt)
    (hterm : fatEnt.term = t) :
    maybeInlineSideloadedRaftCommand rangeID
      (entWithCmd .sideloaded cmdID i t ⟨some ⟨[], crc⟩⟩) ss cache
      = .ok fatEnt := by
  have hd := decode_encode .sideloaded
    (marshalRaftCommand ⟨some ⟨[], crc⟩⟩) h
  simp [maybeInlineSideloadedRaftCommand, entWithCmd, sniff_encode_standard, sniff_encode_sideloaded, hd,
    unmarshal_marshal, hcache, hterm]

theorem maybeInline_thin_cache_term_mismatch (rangeID : Nat) (cmdID : Bytes)
    (i t : Nat) (crc : Nat) (d : Bytes) (ss : InMemSideloadStorage)
    (cache : RaftEntryCache) (staleEnt : Entry)
    (h : cmdID.length = raftCommandIDLen)
    (hcache : getCachedEntry rangeID i cache = some staleEnt)
    (hterm : staleEnt.term ≠ t) (hget : memGet i t ss = .ok d) :
    maybeInlineSideloadedRaftCommand rangeID
      (entWithCmd .sideloaded cmdID i t ⟨some ⟨[], crc⟩⟩) ss cache
      = .ok (entWithCmd .sideloaded cmdID i t ⟨some ⟨d, crc⟩⟩) := by
  have hd := decode_encode .sideloaded
    (marshalRaftCommand ⟨some ⟨[], crc⟩⟩) h
  simp [maybeInlineSideloadedRaftCommand, entWithCmd, sniff_encode_standard, sniff_encode_sideloaded, hd,
    unmarshal_marshal, hcache, hterm, hget]

theorem maybeInline_thin_missing (rangeID : Nat) (cmdID : Bytes) (i t : Nat)
    (crc : Nat) (ss : InMemSideloadStorage) (cache : RaftEntryCache)
    (h : cmdID.length = raftCommandIDLen)
    (hcache : getCachedEntry rangeID i cache = none)
    (hget : memGet i t ss = .error errSideloadedFileNotFound) :
    maybeInlineSideloadedRaftCommand rangeID
      (entWithCmd .sideloaded cmdID i t ⟨some ⟨[], crc⟩⟩) ss cache
      = .error errSideloadedFileNotFound := by
  have hd := decode_encode .sideloaded
    (marshalRaftCommand ⟨some ⟨[], crc⟩⟩) h
  simp [maybeInlineSideloadedRaftCommand, entWithCmd, sniff_encode_standard, sniff_encode_sideloaded, hd,
    unmarshal_marshal, hcache, hget]

/-- Batch inlining succeeds pointwise: if every description's thin entry
inlines back to its fat entry, the batch does. -/
theorem inlineEntries_especMap (rangeID : Nat) (ss : InMemSideloadStorage)
    (cache : RaftEntryCache) (xs : List ESpec)
    (h : ∀ s ∈ xs, maybeInlineSideloadedRaftCommand rangeID (especThin s) ss
            cache = .ok (especEntry s)) :
    inlineEntries rangeID ss cache (xs.map especThin)
      = .ok (xs.map especEntry) := by
  induction xs with
  | nil => rfl
  | cons x rest ih =>
    have hx := h x (by simp)
    have hrest := ih (fun s hs => h s (by simp [hs]))
    simp [inlineEntries, hx, hrest]

/-! ## Storage characterizations -/

theorem memGet_ok_iff {i t : Nat} {ss : InMemSideloadStorage} {b : Bytes} :
    memGet i t ss = .ok b ↔ assocGet (i, t) ss.m = some b := by
  unfold memGet
  cases h : assocGet (i, t) ss.m <;> simp [h, errSideloadedFileNotFound]

theorem memGet_notFound_iff {i t : Nat} {ss : InMemSideloadStorage} :
    memGet i t ss = .error errSideloadedFileNotFound ↔
      assocGet (i, t) ss.m = none := by
  unfold memGet
  cases h : assocGet (i, t) ss.m <;> simp [h, errSideloadedFileNotFound]

theorem diskGet_ok_iff {id : Ident} {i t : Nat} {fs : FS} {b : Bytes} :
    diskGet id i t fs = .ok b ↔ assocGet (id, (i, t)) fs.files = some b := by
  unfold diskGet
  cases h : assocGet (id, (i, t)) fs.files <;>
    simp [h, errSideloadedFileNotFound]

theorem diskGet_notFound_iff {id : Ident} {i t : Nat} {fs : FS} :
    diskGet id i t fs = .error errSideloadedFileNotFound ↔
      assocGet (id, (i, t)) fs.files = none := by
  unfold diskGet
  cases h : assocGet (id, (i, t)) fs.files <;>
    simp [h, errSideloadedFileNotFound]

/-- All three `TruncateTo` branches under an existing directory leave the
same payload files: those of other instances, and this instance's files with
index at or above the truncation point. -/
theorem diskTruncateTo_files (id : Ident) (firstIndex : Nat) (fs : FS)
    (h : id ∈ fs.dirs) :
    (diskTruncateTo id firstIndex fs).1.files
      = dirKeepFiles id firstIndex fs := by
  unfold diskTruncateTo
  rw [if_pos h]
  split
  · split <;> rfl
  · rfl

theorem assocGet_truncFilter (i t fi : Nat) (l : List (SKey × Bytes)) :
    assocGet (i, t) (l.filter (fun kv => !decide (kv.1.1 < fi)))
      = if i < fi then none else assocGet (i, t) l := by
  have h := assocGet_filter ((i, t) : SKey) (fun k => !decide (k.1 < fi)) l
  by_cases hlt : i < fi <;> simpa [hlt] using h

theorem assocGet_dirKeepFiles (id : Ident) (i t fi : Nat) (fs : FS) :
    assocGet (id, (i, t)) (dirKeepFiles id fi fs)
      = if i < fi then none else assocGet (id, (i, t)) fs.files := by
  have h := assocGet_filter ((id, (i, t)) : Ident × SKey)
    (fun k => !decide (k.1 = id ∧ k.2.1 < fi)) fs.files
  unfold dirKeepFiles
  by_cases hlt : i < fi <;> simpa [hlt] using h

/-! ## Claim theorems -/

/-- C4 (confirmed): for every first index, after `TruncateTo(first_index)`
the storage answers `Get(i, t)` with `NotFound` for every previously stored
key with `i < first_index` at every term, and with the previously stored
payload unchanged for every stored key with `i ≥ first_index`; and
`TruncateTo` on a disk storage whose directory does not exist succeeds as a
no-op. Stated for both variants; the disk deletion clauses carry the
reachability fact that a directory holding stored payloads exists. -/
theorem truncateTo_correct :
    (∀ (firstIndex i t : Nat) (ss : InMemSideloadStorage) (b : Bytes),
       memGet i t ss = .ok b →
         (i < firstIndex →
            memGet i t (memTruncateTo firstIndex ss).1
              = .error errSideloadedFileNotFound)
         ∧ (firstIndex ≤ i →
            memGet i t (memTruncateTo firstIndex ss).1 = .ok b))
    ∧ (∀ (id : Ident) (firstIndex i t : Nat) (fs : FS) (b : Bytes),
       id ∈ fs.dirs → diskGet id i t fs = .ok b →
         (i < firstIndex →
            diskGet id i t (diskTruncateTo id firstIndex fs).1
              = .error errSideloadedFileNotFound)
         ∧ (firstIndex ≤ i →
            diskGet id i t (diskTruncateTo id firstIndex fs).1 = .ok b))
    ∧ (∀ (id : Ident) (firstIndex : Nat) (fs : FS),
       id ∉ fs.dirs → diskTruncateTo id firstIndex fs = (fs, .ok 0)) := by
  refine ⟨?_, ?_, ?_⟩
  · intro firstIndex i t ss b hb
    have hm : (memTruncateTo firstIndex ss).1.m
        = ss.m.filter (fun kv => !decide (kv.1.1 < firstIndex)) := rfl
    constructor
    · intro hlt
      rw [memGet_notFound_iff, hm, assocGet_truncFilter, if_pos hlt]
    · intro hge
      rw [memGet_ok_iff, hm, assocGet_truncFilter,
        if_neg (Nat.not_lt.mpr hge)]
      exact memGet_ok_iff.mp hb
  · intro id firstIndex i t fs b hdir hb
    have hm := diskTruncateTo_files id firstIndex fs hdir
    constructor
    · intro hlt
      rw [diskGet_notFound_iff, hm, assocGet_dirKeepFiles, if_pos hlt]
    · intro hge
      rw [diskGet_ok_iff, hm, assocGet_dirKeepFiles,
        if_neg (Nat.not_lt.mpr hge)]
      exact diskGet_ok_iff.mp hb
  · intro id firstIndex fs hdir
    unfold diskTruncateTo
    rw [if_neg hdir]

/-- C4 witness: a concrete storage with keys (3, 1) and (5, 1); truncating
to 5 removes the first at every term and keeps the second unchanged, and a
truncation over an absent directory is a no-op. -/
theorem truncateTo_correct_witness :
    memGet 3 1 (memPut 5 1 [9] (memPut 3 1 [7] memEmpty)) = .ok [7]
    ∧ (3 < 5 → memGet 3 1
        (memTruncateTo 5 (memPut 5 1 [9] (memPut 3 1 [7] memEmpty))).1
          = .error errSideloadedFileNotFound)
    ∧ (5 ≤ 5 → memGet 5 1
        (memTruncateTo 5 (memPut 5 1 [9] (memPut 3 1 [7] memEmpty))).1
          = .ok [9])
    ∧ ((1, 2) : Ident) ∉ fsEmpty.dirs
    ∧ diskTruncateTo (1, 2) 123 fsEmpty = (fsEmpty, .ok 0) := by
  refine ⟨by decide, ?_, ?_, by decide, ?_⟩
  · exact fun _ => ((truncateTo_correct.1 5 3 1
      (memPut 5 1 [9] (memPut 3 1 [7] memEmpty)) [7]) (by decide)).1
      (by decide)
  · exact fun _ => ((truncateTo_correct.1 5 5 1
      (memPut 5 1 [9] (memPut 3 1 [7] memEmpty)) [9]) (by decide)).2
      (by decide)
  · exact truncateTo_correct.2.2 (1, 2) 123 fsEmpty (by decide)

/-- C5 (confirmed): `Put` followed by `Get` at the same key returns the
stored bytes; a second `Put` at the same key overwrites, so `Get` returns
the newer bytes; and payloads stored at one index under two different terms
coexist, each retrievable with its own bytes — for both the in-memory and
the on-disk variant. -/
theorem put_get_correct :
    (∀ (i t : Nat) (b : Bytes) (ss : InMemSideloadStorage),
       memGet i t (memPut i t b ss) = .ok b)
    ∧ (∀ (i t : Nat) (b b' : Bytes) (ss : InMemSideloadStorage),
       memGet i t (memPut i t b' (memPut i t b ss)) = .ok b')
    ∧ (∀ (i t t' : Nat) (b b' : Bytes) (ss : InMemSideloadStorage), t ≠ t' →
       memGet i t (memPut i t' b' (memPut i t b ss)) = .ok b
       ∧ memGet i t' (memPut i t' b' (memPut i t b ss)) = .ok b')
    ∧ (∀ (id : Ident) (i t : Nat) (b : Bytes) (fs : FS),
       diskGet id i t (diskPut id i t b fs) = .ok b)
    ∧ (∀ (id : Ident) (i t : Nat) (b b' : Bytes) (fs : FS),
       diskGet id i t (diskPut id i t b' (diskPut id i t b fs)) = .ok b')
    ∧ (∀ (id : Ident) (i t t' : Nat) (b b' : Bytes) (fs : FS), t ≠ t' →
       diskGet id i t (diskPut id i t' b' (diskPut id i t b fs)) = .ok b
       ∧ diskGet id i t' (diskPut id i t' b' (diskPut id i t b fs)) = .ok b') := by
  refine ⟨?_, ?_, ?_, ?_, ?_, ?_⟩
  · intro i t b ss
    rw [memGet_ok_iff]
    exact assocGet_put_self _ _ _
  · intro i t b b' ss
    rw [memGet_ok_iff]
    exact assocGet_put_self _ _ _
  · intro i t t' b b' ss hne
    have hk : ((i, t) : SKey) ≠ (i, t') := by simp [hne]
    constructor
    · rw [memGet_ok_iff]
      show assocGet (i, t) (assocPut (i, t') b' (assocPut (i, t) b ss.m)) = some b
      rw [assocGet_put_other hk, assocGet_put_self]
    · rw [memGet_ok_iff]
      exact assocGet_put_self _ _ _
  · intro id i t b fs
    rw [diskGet_ok_iff]
    exact assocGet_put_self _ _ _
  · intro id i t b b' fs
    rw [diskGet_ok_iff]
    exact assocGet_put_self _ _ _
  · intro id i t t' b b' fs hne
    have hk : ((id, (i, t)) : Ident × SKey) ≠ (id, (i, t')) := by simp [hne]
    constructor
    · rw [diskGet_ok_iff]
      show assocGet (id, (i, t))
        (assocPut (id, (i, t')) b' (assocPut (id, (i, t)) b fs.files)) = some b
      rw [assocGet_put_other hk, assocGet_put_self]
    · rw [diskGet_ok_iff]
      exact assocGet_put_self _ _ _

/-- C5 witness: the test's concrete scenario, `Put(1, 2, "content-1")` then
overwrite with `"content-12345"` (abbreviated payloads), and multi-term
coexistence at index 3. -/
theorem put_get_correct_witness :
    memGet 1 2 (memPut 1 2 [1] memEmpty) = .ok [1]
    ∧ memGet 1 2 (memPut 1 2 [1, 2, 3, 4, 5] (memPut 1 2 [1] memEmpty))
        = .ok [1, 2, 3, 4, 5]
    ∧ (1 ≠ 2 → memGet 3 1 (memPut 3 2 [98] (memPut 3 1 [97] memEmpty)) = .ok [97]
        ∧ memGet 3 2 (memPut 3 2 [98] (memPut 3 1 [97] memEmpty)) = .ok [98])
    ∧ diskGet (1, 2) 1 2 (diskPut (1, 2) 1 2 [1] fsEmpty) = .ok [1] :=
  ⟨put_get_correct.1 1 2 [1] memEmpty,
   put_get_correct.2.1 1 2 [1] [1, 2, 3, 4, 5] memEmpty,
   fun h => put_get_correct.2.2.1 3 1 2 [97] [98] memEmpty h,
   put_get_correct.2.2.2.1 (1, 2) 1 2 [1] fsEmpty⟩

/-- C6 (corrected): on a storage holding no payload at the requested key,
`Get` and `Purge` fail with the `NotFound` error and never create the
backing directory (a successful `Purge` leaves the set of directories
unchanged, and a failed one returns no state at all) — but `Filename`, per
the repository's own storage test, succeeds and returns the deterministic
path of the key without checking existence. -/
theorem absent_key_correct :
    (∀ (i t : Nat) (ss : InMemSideloadStorage), assocGet (i, t) ss.m = none →
       memGet i t ss = .error errSideloadedFileNotFound
       ∧ memPurge i t ss = .error errSideloadedFileNotFound)
    ∧ (∀ (id : Ident) (i t : Nat) (fs : FS),
       assocGet (id, (i, t)) fs.files = none →
       diskGet id i t fs = .error errSideloadedFileNotFound
       ∧ diskPurge id i t fs = .error errSideloadedFileNotFound)
    ∧ (∀ (id : Ident) (i t : Nat) (fs fs' : FS),
       diskPurge id i t fs = .ok fs' → fs'.dirs = fs.dirs)
    ∧ (∀ (id : Ident) (i t : Nat) (fs : FS),
       diskFilename id i t fs = .ok (id, (i, t)))
    ∧ (∀ (i t : Nat), memFilename i t = .ok []) := by
  refine ⟨?_, ?_, ?_, fun id i t fs => rfl, fun i t => rfl⟩
  · intro i t ss h
    exact ⟨by simp [memGet, h], by simp [memPurge, h]⟩
  · intro id i t fs h
    exact ⟨by simp [diskGet, h], by simp [diskPurge, h]⟩
  · intro id i t fs fs' h
    unfold diskPurge at h
    cases ha : assocGet (id, (i, t)) fs.files with
    | none => rw [ha] at h; cases h
    | some b =>
      rw [ha] at h
      cases h
      rfl

/-- C6 counterexample: the claim says `Filename` on an absent key fails
with `NotFound`; on the empty filesystem (where `Get` does report
`NotFound` for the same key) `Filename` succeeds for both variants, as the
repository's storage test requires. -/
theorem absent_key_filename_cex :
    diskGet (1, 2) 123 456 fsEmpty = .error errSideloadedFileNotFound
    ∧ diskFilename (1, 2) 123 456 fsEmpty ≠ .error errSideloadedFileNotFound
    ∧ diskFilename (1, 2) 123 456 fsEmpty = .ok ((1, 2), (123, 456))
    ∧ memFilename 123 456 ≠ .error errSideloadedFileNotFound
    ∧ memFilename 123 456 = .ok [] := by
  refine ⟨rfl, ?_, rfl, ?_, rfl⟩ <;> intro h <;> cases h

/-- C6 witness: the amended statement at the concrete key (123, 456) of the
test, on the empty storages. -/
theorem absent_key_correct_witness :
    assocGet ((123 : Nat), (456 : Nat)) memEmpty.m = none
    ∧ memGet 123 456 memEmpty = .error errSideloadedFileNotFound
    ∧ memPurge 123 456 memEmpty = .error errSideloadedFileNotFound
    ∧ diskGet (1, 2) 123 456 fsEmpty = .error errSideloadedFileNotFound
    ∧ diskPurge (1, 2) 123 456 fsEmpty = .error errSideloadedFileNotFound
    ∧ diskFilename (1, 2) 123 456 fsEmpty = .ok ((1, 2), (123, 456))
    ∧ memFilename 123 456 = .ok [] :=
  ⟨rfl,
   (absent_key_correct.1 123 456 memEmpty rfl).1,
   (absent_key_correct.1 123 456 memEmpty rfl).2,
   (absent_key_correct.2.1 (1, 2) 123 456 fsEmpty rfl).1,
   (absent_key_correct.2.1 (1, 2) 123 456 fsEmpty rfl).2,
   absent_key_correct.2.2.2.1 (1, 2) 123 456 fsEmpty,
   absent_key_correct.2.2.2.2 123 456⟩

/-- C10 (confirmed): storage instances over the same base directory for the
same range but different replica ids never observe each other's keys: a
`Put` by one instance leaves the other instance's `Get` at the same
`(index, term)` unchanged, and in particular still `NotFound` when it was
absent before. -/
theorem replica_isolation (r rep1 rep2 i t : Nat) (b : Bytes) (fs : FS)
    (h : rep1 ≠ rep2) :
    diskGet (r, rep2) i t (diskPut (r, rep1) i t b fs)
      = diskGet (r, rep2) i t fs
    ∧ (diskGet (r, rep2) i t fs = .error errSideloadedFileNotFound →
       diskGet (r, rep2) i t (diskPut (r, rep1) i t b fs)
         = .error errSideloadedFileNotFound) := by
  have hk : (((r, rep2), (i, t)) : Ident × SKey) ≠ ((r, rep1), (i, t)) := by
    simp [Ne.symm h]
  have h1 : diskGet (r, rep2) i t (diskPut (r, rep1) i t b fs)
      = diskGet (r, rep2) i t fs := by
    unfold diskGet diskPut
    rw [show (({ fs with
        files := assocPut ((r, rep1), (i, t)) b fs.files,
        dirs := fs.dirs.insert (r, rep1) } : FS)).files
      = assocPut ((r, rep1), (i, t)) b fs.files from rfl]
    rw [assocGet_put_other hk]
  exact ⟨h1, fun h2 => h1.trans h2⟩

/-- C10 witness: replica 2 and replica 999 of range 1 (the test's setup):
after replica 2 stores a payload at (3, 2), replica 999 still sees
`NotFound` there. -/
theorem replica_isolation_witness :
    (2 : Nat) ≠ 999
    ∧ diskGet (1, 999) 3 2 fsEmpty = .error errSideloadedFileNotFound
    ∧ diskGet (1, 999) 3 2 (diskPut (1, 2) 3 2 [97] fsEmpty)
        = .error errSideloadedFileNotFound :=
  ⟨by decide, rfl,
   (replica_isolation 1 2 999 3 2 [97] fsEmpty (by decide)).2 rfl⟩

/-- C7 (confirmed): truncating past every stored index while a foreign file
sits in the directory deletes all payloads but fails with the
directory-not-empty error naming the directory; after the caller removes
the foreign file, a retry succeeds and the directory no longer exists.
`firstIndex` is universally quantified above all stored indexes of the
instance, which covers the test's `TruncateTo(math.MaxUint64)`. -/
theorem truncateTo_foreign_correct (id : Ident) (firstIndex : Nat) (fs : FS)
    (hdir : id ∈ fs.dirs)
    (hforeign : fs.foreign.filter (fun kv => decide (kv.1 = id)) ≠ [])
    (hall : ∀ kv ∈ fs.files, kv.1.1 = id → kv.1.2.1 < firstIndex) :
    (diskTruncateTo id firstIndex fs).2 = .error (.dirNotEmpty id)
    ∧ (diskTruncateTo id firstIndex fs).1.files.filter
        (fun kv => decide (kv.1.1 = id)) = []
    ∧ id ∈ (diskTruncateTo id firstIndex fs).1.dirs
    ∧ (diskTruncateTo id firstIndex
         (removeForeign id (diskTruncateTo id firstIndex fs).1)).2 = .ok 0
    ∧ id ∉ (diskTruncateTo id firstIndex
         (removeForeign id (diskTruncateTo id firstIndex fs).1)).1.dirs := by
  have hkeep : (dirKeepFiles id firstIndex fs).filter
      (fun kv => decide (kv.1.1 = id)) = [] := by
    rw [List.filter_eq_nil_iff]
    intro kv hkv hid
    have hmem := List.mem_filter.mp hkv
    have hkvid : kv.1.1 = id := of_decide_eq_true hid
    have hidx := hall kv hmem.1 hkvid
    have := hmem.2
    simp [hkvid, hidx] at this
  have hkeepEmpty : ((dirKeepFiles id firstIndex fs).filter
      (fun kv => decide (kv.1.1 = id))).isEmpty = true := by
    rw [List.isEmpty_iff]
    exact hkeep
  have hforNot : ¬ ((fs.foreign.filter
      (fun kv => decide (kv.1 = id))).isEmpty = true) := by
    rw [List.isEmpty_iff]
    exact hforeign
  have hstep : diskTruncateTo id firstIndex fs
      = ({ fs with files := dirKeepFiles id firstIndex fs },
         .error (.dirNotEmpty id)) := by
    unfold diskTruncateTo
    rw [if_pos hdir, if_pos hkeepEmpty, if_neg hforNot]
  have hnoid : ∀ kv ∈ dirKeepFiles id firstIndex fs, ¬ kv.1.1 = id := by
    intro kv hkv hkvid
    have : kv ∈ (dirKeepFiles id firstIndex fs).filter
        (fun kv => decide (kv.1.1 = id)) :=
      List.mem_filter.mpr ⟨hkv, decide_eq_true hkvid⟩
    rw [hkeep] at this
    cases this
  refine ⟨by rw [hstep], by rw [hstep]; exact hkeep, by rw [hstep]; exact hdir,
    ?_, ?_⟩ <;> rw [hstep]
  all_goals {
    have hfs2files : (removeForeign id
        ({ fs with files := dirKeepFiles id firstIndex fs } : FS)).files
        = dirKeepFiles id firstIndex fs := rfl
    have hfs2dirs : (removeForeign id
        ({ fs with files := dirKeepFiles id firstIndex fs } : FS)).dirs
        = fs.dirs := rfl
    have hkeep2 : ((dirKeepFiles id firstIndex (removeForeign id
        ({ fs with files := dirKeepFiles id firstIndex fs } : FS))).filter
          (fun kv => decide (kv.1.1 = id))).isEmpty = true := by
      rw [List.isEmpty_iff, List.filter_eq_nil_iff]
      intro kv hkv hid2
      have hmem := List.mem_filter.mp hkv
      rw [hfs2files] at hmem
      exact hnoid kv hmem.1 (of_decide_eq_true hid2)
    have hfor2 : ((removeForeign id
        ({ fs with files := dirKeepFiles id firstIndex fs } : FS)).foreign.filter
          (fun kv => decide (kv.1 = id))).isEmpty = true := by
      rw [List.isEmpty_iff, List.filter_eq_nil_iff]
      intro kv hkv hid2
      have hmem := List.mem_filter.mp hkv
      have := hmem.2
      rw [of_decide_eq_true hid2] at this
      simp at this
    have hfreed2 : dirFreedBytes id firstIndex (removeForeign id
        ({ fs with files := dirKeepFiles id firstIndex fs } : FS)) = 0 := by
      unfold dirFreedBytes
      rw [hfs2files]
      have : (dirKeepFiles id firstIndex fs).filter
          (fun kv => decide (kv.1.1 = id ∧ kv.1.2.1 < firstIndex)) = [] := by
        rw [List.filter_eq_nil_iff]
        intro kv hkv hid2
        exact hnoid kv hkv (of_decide_eq_true hid2).1
      rw [this]
      rfl
    have hdir2 : id ∈ (removeForeign id
        ({ fs with files := dirKeepFiles id firstIndex fs } : FS)).dirs := by
      rw [hfs2dirs]
      exact hdir
    unfold diskTruncateTo
    rw [if_pos hdir2, if_pos hkeep2, if_pos hfor2]
    try { rw [hfreed2] }
    try {
      intro hmem2
      have := (List.mem_filter.mp hmem2).2
      simp at this
    }
  }

/-- C7 witness: a concrete directory of replica (1, 2) with one payload at
(3, 2) and one foreign file; truncating to 100 fails naming the directory,
and after the foreign file is removed the retry succeeds and removes the
directory. -/
theorem truncateTo_foreign_correct_witness :
    ((1, 2) : Ident) ∈ (FS.mk [(((1, 2), (3, 2)), [97])] [((1, 2), [99])]
        [(1, 2)]).dirs
    ∧ (FS.mk [(((1, 2), (3, 2)), [97])] [((1, 2), [99])]
        [(1, 2)]).foreign.filter (fun kv => decide (kv.1 = (1, 2))) ≠ []
    ∧ (diskTruncateTo (1, 2) 100 (FS.mk [(((1, 2), (3, 2)), [97])]
        [((1, 2), [99])] [(1, 2)])).2 = .error (.dirNotEmpty (1, 2))
    ∧ (diskTruncateTo (1, 2) 100 (removeForeign (1, 2)
        (diskTruncateTo (1, 2) 100 (FS.mk [(((1, 2), (3, 2)), [97])]
          [((1, 2), [99])] [(1, 2)])).1)).2 = .ok 0
    ∧ ((1, 2) : Ident) ∉ (diskTruncateTo (1, 2) 100 (removeForeign (1, 2)
        (diskTruncateTo (1, 2) 100 (FS.mk [(((1, 2), (3, 2)), [97])]
          [((1, 2), [99])] [(1, 2)])).1)).1.dirs := by
  have h := truncateTo_foreign_correct (1, 2) 100
    (FS.mk [(((1, 2), (3, 2)), [97])] [((1, 2), [99])] [(1, 2)])
    (by decide) (by decide) (by decide)
  exact ⟨by decide, by decide, h.1, h.2.2.2.1, h.2.2.2.2⟩

/-! ## Helper lemmas for the pipeline claims -/

theorem especSideloadable_elim (s : ESpec) (h : especSideloadable s = true) :
    s.ver = .sideloaded ∧ ∃ d crc, s.cmd = ⟨some ⟨d, crc⟩⟩ ∧ d ≠ []
      ∧ especPayload s = d ∧ especCRC s = crc := by
  obtain ⟨v, cmdID, ⟨as⟩, i, t⟩ := s
  cases v with
  | standard => simp [especSideloadable] at h
  | sideloaded =>
    cases as with
    | none => simp [especSideloadable] at h
    | some a =>
      obtain ⟨d, c⟩ := a
      simp only [especSideloadable, Bool.not_eq_true', List.isEmpty_eq_false,
        ne_eq] at h
      exact ⟨rfl, d, c, rfl, h, rfl, rfl⟩

theorem especGood_of_sideloadable (s : ESpec)
    (h : especSideloadable s = true) : especGood s = true := by
  obtain ⟨v, cmdID, ⟨as⟩, i, t⟩ := s
  cases v <;> cases as <;> simp_all [especSideloadable, especGood]

/-- Single-entry inlining sends the thin form of a description back to its
fat form whenever the description is good and its payload (if any) is in
the storage; the cache is empty, as on the snapshot path after a cache
clear. -/
theorem especThin_inlines (rangeID : Nat) (s : ESpec)
    (ss : InMemSideloadStorage)
    (hid : s.cmdID.length = raftCommandIDLen)
    (hgood : especGood s = true)
    (hpres : especSideloadable s = true →
       memGet s.index s.term ss = .ok (especPayload s)) :
    maybeInlineSideloadedRaftCommand rangeID (especThin s) ss emptyCache
      = .ok (especEntry s) := by
  obtain ⟨v, cmdID, ⟨as⟩, i, t⟩ := s
  cases v with
  | standard =>
    have hthin : especThin ⟨.standard, cmdID, ⟨as⟩, i, t⟩
        = especEntry ⟨.standard, cmdID, ⟨as⟩, i, t⟩ := by
      unfold especThin
      rw [if_neg]
      simp [especSideloadable]
    rw [hthin]
    exact maybeInline_standard rangeID cmdID i t ⟨as⟩ ss emptyCache
  | sideloaded =>
    cases as with
    | none =>
      have hthin : especThin ⟨.sideloaded, cmdID, ⟨none⟩, i, t⟩
          = especEntry ⟨.sideloaded, cmdID, ⟨none⟩, i, t⟩ := by
        unfold especThin
        rw [if_neg]
        simp [especSideloadable]
      rw [hthin]
      exact maybeInline_no_ingest rangeID cmdID i t ss emptyCache hid
    | some a =>
      obtain ⟨d, c⟩ := a
      cases d with
      | nil => simp [especGood] at hgood
      | cons x xs =>
        have hsl : especSideloadable ⟨.sideloaded, cmdID, ⟨some ⟨x :: xs, c⟩⟩,
            i, t⟩ = true := by simp [especSideloadable]
        have hthin : especThin ⟨.sideloaded, cmdID, ⟨some ⟨x :: xs, c⟩⟩, i, t⟩
            = entWithCmd .sideloaded cmdID i t ⟨some ⟨[], c⟩⟩ := by
          unfold especThin
          rw [if_pos hsl]
          rfl
        have hget := hpres hsl
        rw [hthin]
        exact maybeInline_thin_from_storage rangeID cmdID i t c (x :: xs) ss
          emptyCache hid rfl hget

/-- A batch whose prefix inlines cleanly fails as a whole with the error of
its first failing entry. -/
theorem inlineEntries_error (rangeID : Nat) (ss : InMemSideloadStorage)
    (cache : RaftEntryCache) (pre post : List Entry) (e : Entry)
    (err : SideloadErr)
    (hpre : ∀ p ∈ pre,
       ∃ r, maybeInlineSideloadedRaftCommand rangeID p ss cache = .ok r)
    (he : maybeInlineSideloadedRaftCommand rangeID e ss cache = .error err) :
    inlineEntries rangeID ss cache (pre ++ e :: post) = .error err := by
  induction pre with
  | nil => simp [inlineEntries, he]
  | cons p rest ih =>
    obtain ⟨r, hr⟩ := hpre p (by simp)
    have hrest := ih (fun q hq => hpre q (by simp [hq]))
    simp [inlineEntries, hr, hrest]

/-- C2 (confirmed): on a batch of well-formed entries the sideloading
pipeline succeeds with a list of the same length and order in which every
`Standard`-version entry is forwarded unchanged (even if it carries an
ingest payload), every `Sideloaded` entry with a non-empty ingest payload
is replaced by its thin copy (payload field emptied) while the payload
bytes are written to the storage under `(index, term)`, the returned byte
total is the sum of the stripped payload lengths, and the empty batch
yields an empty output and 0. -/
theorem maybeSideloadEntriesImpl_correct (xs : List ESpec)
    (ss : InMemSideloadStorage)
    (h : ∀ s ∈ xs, s.cmdID.length = raftCommandIDLen) :
    maybeSideloadEntriesImpl noCmd (xs.map especEntry) ss
      = .ok (xs.map especThin,
             (xs.map (fun s => (especPayload s).length)).sum,
             especPuts xs ss)
    ∧ (xs.map especThin).length = (xs.map especEntry).length
    ∧ (∀ s ∈ xs, s.ver = .standard → especThin s = especEntry s)
    ∧ (∀ s ∈ xs, especSideloadable s = true →
        especThin s
          = entWithCmd .sideloaded s.cmdID s.index s.term ⟨some ⟨[], especCRC s⟩⟩)
    ∧ ((xs.map especKey).Nodup → ∀ s ∈ xs, especSideloadable s = true →
        memGet s.index s.term (especPuts xs ss) = .ok (especPayload s))
    ∧ maybeSideloadEntriesImpl noCmd [] ss = .ok ([], 0, ss) := by
  refine ⟨maybeSideloadEntriesImpl_especMap xs ss h, by simp, ?_, ?_, ?_, rfl⟩
  · intro s hs hstd
    unfold especThin
    rw [if_neg]
    simp [especSideloadable, hstd]
  · intro s hs hsl
    unfold especThin
    rw [if_pos hsl]
  · intro hnd s hs hsl
    exact memGet_especPuts_of_mem xs ss hnd s hs hsl

/-- C2 witness: the sideload test's mixed batch — a `Standard` entry with a
payload inside followed by a fat `Sideloaded` entry at (13, 99) with
payload "foo" — processed from the empty storage. -/
theorem maybeSideloadEntriesImpl_correct_witness :
    (⟨.standard, List.replicate raftCommandIDLen 120, ⟨some ⟨[9], 7⟩⟩, 10, 99⟩
        : ESpec).cmdID.length = raftCommandIDLen
    ∧ (⟨.sideloaded, List.replicate raftCommandIDLen 120,
        ⟨some ⟨[102, 111, 111], 0⟩⟩, 13, 99⟩ : ESpec).cmdID.length
          = raftCommandIDLen
    ∧ maybeSideloadEntriesImpl noCmd
        (([⟨.standard, List.replicate raftCommandIDLen 120, ⟨some ⟨[9], 7⟩⟩,
            10, 99⟩,
           ⟨.sideloaded, List.replicate raftCommandIDLen 120,
            ⟨some ⟨[102, 111, 111], 0⟩⟩, 13, 99⟩] : List ESpec).map especEntry)
        memEmpty
      = .ok (([⟨.standard, List.replicate raftCommandIDLen 120, ⟨some ⟨[9], 7⟩⟩,
                10, 99⟩,
               ⟨.sideloaded, List.replicate raftCommandIDLen 120,
                ⟨some ⟨[102, 111, 111], 0⟩⟩, 13, 99⟩] : List ESpec).map especThin,
             3,
             especPuts [⟨.standard, List.replicate raftCommandIDLen 120,
                ⟨some ⟨[9], 7⟩⟩, 10, 99⟩,
               ⟨.sideloaded, List.replicate raftCommandIDLen 120,
                ⟨some ⟨[102, 111, 111], 0⟩⟩, 13, 99⟩] memEmpty)
    ∧ especThin ⟨.standard, List.replicate raftCommandIDLen 120,
        ⟨some ⟨[9], 7⟩⟩, 10, 99⟩
      = especEntry ⟨.standard, List.replicate raftCommandIDLen 120,
        ⟨some ⟨[9], 7⟩⟩, 10, 99⟩
    ∧ memGet 13 99 (especPuts [⟨.standard,
        List.replicate raftCommandIDLen 120, ⟨some ⟨[9], 7⟩⟩, 10, 99⟩,
        ⟨.sideloaded, List.replicate raftCommandIDLen 120,
         ⟨some ⟨[102, 111, 111], 0⟩⟩, 13, 99⟩] memEmpty)
      = .ok [102, 111, 111] := by
  have h := maybeSideloadEntriesImpl_correct
    [⟨.standard, List.replicate raftCommandIDLen 120, ⟨some ⟨[9], 7⟩⟩, 10, 99⟩,
     ⟨.sideloaded, List.replicate raftCommandIDLen 120,
      ⟨some ⟨[102, 111, 111], 0⟩⟩, 13, 99⟩] memEmpty (by decide)
  refine ⟨by decide, by decide, ?_,
    h.2.2.1 ⟨.standard, List.replicate raftCommandIDLen 120, ⟨some ⟨[9], 7⟩⟩,
      10, 99⟩ (by decide) rfl,
    h.2.2.2.2.1 (by decide) ⟨.sideloaded, List.replicate raftCommandIDLen 120,
      ⟨some ⟨[102, 111, 111], 0⟩⟩, 13, 99⟩ (by decide) (by decide)⟩
  have h1 := h.1
  rw [show ((([⟨.standard, List.replicate raftCommandIDLen 120,
      ⟨some ⟨[9], 7⟩⟩, 10, 99⟩, ⟨.sideloaded,
      List.replicate raftCommandIDLen 120, ⟨some ⟨[102, 111, 111], 0⟩⟩, 13,
      99⟩] : List ESpec).map (fun s => (especPayload s).length)).sum = 3)
    from by decide] at h1
  exact h1

/-! Concrete material for witnesses and counterexamples. -/

/-- A fat `Sideloaded` description at (13, 99) with payload "foo". -/
def wFat : ESpec :=
  ⟨.sideloaded, List.replicate raftCommandIDLen 120,
   ⟨some ⟨[102, 111, 111], 0⟩⟩, 13, 99⟩

/-- A second fat `Sideloaded` description at (14, 99). -/
def wFat2 : ESpec :=
  ⟨.sideloaded, List.replicate raftCommandIDLen 120, ⟨some ⟨[1, 2], 3⟩⟩,
   14, 99⟩

/-- The thin entry at (5, 6) of the inline test. -/
def wThinEnt : Entry :=
  entWithCmd .sideloaded (List.replicate raftCommandIDLen 120) 5 6
    ⟨some ⟨[], 0⟩⟩

/-- The fat entry at (5, 6) of the inline test, payload "foo". -/
def wFatEnt : Entry :=
  entWithCmd .sideloaded (List.replicate raftCommandIDLen 120) 5 6
    ⟨some ⟨[102, 111, 111], 0⟩⟩

/-- Two fat descriptions sharing the key (5, 6) with different payloads. -/
def cexSpecA : ESpec :=
  ⟨.sideloaded, List.replicate raftCommandIDLen 120, ⟨some ⟨[97], 0⟩⟩, 5, 6⟩

/-- See `cexSpecA`; same key, payload "b" instead of "a". -/
def cexSpecB : ESpec :=
  ⟨.sideloaded, List.replicate raftCommandIDLen 120, ⟨some ⟨[98], 0⟩⟩, 5, 6⟩

/-- C3 (confirmed): single-entry inlining returns the entry unchanged when
its envelope is not `Sideloaded` or its ingest payload is already
non-empty; a thin `Sideloaded` entry whose payload was previously `Put` at
`(index, term)` comes back as the fat entry, bitwise — from the entry cache
when a cached entry with matching term exists (and from storage when the
cached term does not match), otherwise from `storage.Get`; and when the
payload is in neither the cache nor the storage it fails with the
missing-sideloaded-payload `NotFound` error. -/
theorem maybeInlineSideloadedRaftCommand_correct :
    (∀ (rangeID : Nat) (e : Entry) (ss : InMemSideloadStorage)
       (cache : RaftEntryCache), sniffSideloadedRaftCommand e.data = false →
       maybeInlineSideloadedRaftCommand rangeID e ss cache = .ok e)
    ∧ (∀ (rangeID : Nat) (cmdID : Bytes) (i t : Nat) (d : Bytes) (crc : Nat)
       (ss : InMemSideloadStorage) (cache : RaftEntryCache),
       cmdID.length = raftCommandIDLen → d ≠ [] →
       maybeInlineSideloadedRaftCommand rangeID
         (entWithCmd .sideloaded cmdID i t ⟨some ⟨d, crc⟩⟩) ss cache
         = .ok (entWithCmd .sideloaded cmdID i t ⟨some ⟨d, crc⟩⟩))
    ∧ (∀ (rangeID : Nat) (cmdID : Bytes) (i t : Nat) (d : Bytes) (crc : Nat)
       (ss : InMemSideloadStorage),
       cmdID.length = raftCommandIDLen →
       maybeInlineSideloadedRaftCommand rangeID
         (entWithCmd .sideloaded cmdID i t ⟨some ⟨[], crc⟩⟩)
         (memPut i t d ss) emptyCache
         = .ok (entWithCmd .sideloaded cmdID i t ⟨some ⟨d, crc⟩⟩))
    ∧ (∀ (rangeID : Nat) (cmdID : Bytes) (i t : Nat) (crc : Nat)
       (ss : InMemSideloadStorage) (cache : RaftEntryCache) (fatEnt : Entry),
       cmdID.length = raftCommandIDLen →
       getCachedEntry rangeID i cache = some fatEnt → fatEnt.term = t →
       maybeInlineSideloadedRaftCommand rangeID
         (entWithCmd .sideloaded cmdID i t ⟨some ⟨[], crc⟩⟩) ss cache
         = .ok fatEnt)
    ∧ (∀ (rangeID : Nat) (cmdID : Bytes) (i t : Nat) (d : Bytes) (crc : Nat)
       (ss : InMemSideloadStorage) (cache : RaftEntryCache)
       (staleEnt : Entry),
       cmdID.length = raftCommandIDLen →
       getCachedEntry rangeID i cache = some staleEnt → staleEnt.term ≠ t →
       memGet i t ss = .ok d →
       maybeInlineSideloadedRaftCommand rangeID
         (entWithCmd .sideloaded cmdID i t ⟨some ⟨[], crc⟩⟩) ss cache
         = .ok (entWithCmd .sideloaded cmdID i t ⟨some ⟨d, crc⟩⟩))
    ∧ (∀ (rangeID : Nat) (cmdID : Bytes) (i t : Nat) (crc : Nat)
       (ss : InMemSideloadStorage),
       cmdID.length = raftCommandIDLen →
       memGet i t ss = .error errSideloadedFileNotFound →
       maybeInlineSideloadedRaftCommand rangeID
         (entWithCmd .sideloaded cmdID i t ⟨some ⟨[], crc⟩⟩) ss emptyCache
         = .error errSideloadedFileNotFound) := by
  refine ⟨maybeInline_not_sniffed, maybeInline_already_inlined, ?_,
    maybeInline_thin_from_cache, ?_, ?_⟩
  · intro rangeID cmdID i t d crc ss h
    exact maybeInline_thin_from_storage rangeID cmdID i t crc d
      (memPut i t d ss) emptyCache h rfl
      (memGet_ok_iff.mpr (assocGet_put_self _ _ _))
  · intro rangeID cmdID i t d crc ss cache staleEnt h hc ht hget
    exact maybeInline_thin_cache_term_mismatch rangeID cmdID i t crc d ss
      cache staleEnt h hc ht hget
  · intro rangeID cmdID i t crc ss h hget
    exact maybeInline_thin_missing rangeID cmdID i t crc ss emptyCache h rfl
      hget

/-- C3 witness: the inline test's variants at (5, 6) with payload "foo": a
`Standard` entry is untouched, an already-fat entry is untouched, a thin
entry is restored from storage, from a cache holding the fat entry at the
matching term, and fails with `NotFound` when the payload is nowhere. -/
theorem maybeInlineSideloadedRaftCommand_correct_witness :
    sniffSideloadedRaftCommand (especEntry ⟨.standard,
        List.replicate raftCommandIDLen 120, ⟨some ⟨[102, 111, 111], 0⟩⟩, 5,
        6⟩).data = false
    ∧ maybeInlineSideloadedRaftCommand 1 (especEntry ⟨.standard,
        List.replicate raftCommandIDLen 120, ⟨some ⟨[102, 111, 111], 0⟩⟩, 5,
        6⟩) memEmpty emptyCache
      = .ok (especEntry ⟨.standard, List.replicate raftCommandIDLen 120,
          ⟨some ⟨[102, 111, 111], 0⟩⟩, 5, 6⟩)
    ∧ maybeInlineSideloadedRaftCommand 1 wFatEnt memEmpty emptyCache
      = .ok wFatEnt
    ∧ maybeInlineSideloadedRaftCommand 1 wThinEnt
        (memPut 5 6 [102, 111, 111] memEmpty) emptyCache = .ok wFatEnt
    ∧ getCachedEntry 1 5 (cacheAddEntry 1 wFatEnt emptyCache) = some wFatEnt
    ∧ maybeInlineSideloadedRaftCommand 1 wThinEnt memEmpty
        (cacheAddEntry 1 wFatEnt emptyCache) = .ok wFatEnt
    ∧ memGet 5 6 memEmpty = .error errSideloadedFileNotFound
    ∧ maybeInlineSideloadedRaftCommand 1 wThinEnt memEmpty emptyCache
      = .error errSideloadedFileNotFound := by
  refine ⟨by decide, ?_, ?_, ?_, by decide, ?_, rfl, ?_⟩
  · exact maybeInlineSideloadedRaftCommand_correct.1 1 _ memEmpty emptyCache
      (by decide)
  · exact maybeInlineSideloadedRaftCommand_correct.2.1 1
      (List.replicate raftCommandIDLen 120) 5 6 [102, 111, 111] 0 memEmpty
      emptyCache (by decide) (by decide)
  · exact maybeInlineSideloadedRaftCommand_correct.2.2.1 1
      (List.replicate raftCommandIDLen 120) 5 6 [102, 111, 111] 0 memEmpty
      (by decide)
  · exact maybeInlineSideloadedRaftCommand_correct.2.2.2.1 1
      (List.replicate raftCommandIDLen 120) 5 6 0 memEmpty
      (cacheAddEntry 1 wFatEnt emptyCache) wFatEnt (by decide) (by decide)
      (by decide)
  · exact maybeInlineSideloadedRaftCommand_correct.2.2.2.2.2 1
      (List.replicate raftCommandIDLen 120) 5 6 0 memEmpty (by decide) rfl

/-- C1 (corrected): for a batch of fat entries whose `(index, term)` keys
are pairwise distinct, running the sideloading pipeline and then the
inlining pipeline against the resulting storage reproduces the original fat
entries exactly, bit for bit. (Without the distinctness of keys the law
fails, see the counterexample: a later entry at the same key overwrites the
earlier payload.) -/
theorem sideload_then_inline_roundtrip (rangeID : Nat) (xs : List ESpec)
    (ss : InMemSideloadStorage)
    (hid : ∀ s ∈ xs, s.cmdID.length = raftCommandIDLen)
    (hfat : ∀ s ∈ xs, especSideloadable s = true)
    (hnd : (xs.map especKey).Nodup) :
    maybeSideloadEntriesImpl noCmd (xs.map especEntry) ss
      = .ok (xs.map especThin,
             (xs.map (fun s => (especPayload s).length)).sum,
             especPuts xs ss)
    ∧ inlineEntries rangeID (especPuts xs ss) emptyCache (xs.map especThin)
      = .ok (xs.map especEntry) := by
  refine ⟨maybeSideloadEntriesImpl_especMap xs ss hid, ?_⟩
  apply inlineEntries_especMap
  intro s hs
  exact especThin_inlines rangeID s (especPuts xs ss) (hid s hs)
    (especGood_of_sideloadable s (hfat s hs))
    (fun _ => memGet_especPuts_of_mem xs ss hnd s hs (hfat s hs))

/-- C1 witness: two fat entries at the distinct keys (13, 99) and (14, 99)
round-trip bit for bit through sideloading and inlining. -/
theorem sideload_then_inline_roundtrip_witness :
    especSideloadable wFat = true
    ∧ especSideloadable wFat2 = true
    ∧ ([wFat, wFat2].map especKey).Nodup
    ∧ maybeSideloadEntriesImpl noCmd ([wFat, wFat2].map especEntry) memEmpty
      = .ok ([wFat, wFat2].map especThin,
             ([wFat, wFat2].map (fun s => (especPayload s).length)).sum,
             especPuts [wFat, wFat2] memEmpty)
    ∧ inlineEntries 1 (especPuts [wFat, wFat2] memEmpty) emptyCache
        ([wFat, wFat2].map especThin)
      = .ok ([wFat, wFat2].map especEntry) := by
  have h := sideload_then_inline_roundtrip 1 [wFat, wFat2] memEmpty
    (by decide) (by decide) (by decide)
  exact ⟨by decide, by decide, by decide, h.1, h.2⟩

/-- C1 counterexample: the round-trip law fails as universally stated. Two
fat entries sharing the key (5, 6) with payloads "a" and "b" sideload
cleanly, but the second `Put` overwrites the first payload, so inlining
returns the "b" payload for both positions and the batch does not
reproduce the original entries. -/
theorem sideload_roundtrip_duplicate_key_cex :
    especSideloadable cexSpecA = true
    ∧ especSideloadable cexSpecB = true
    ∧ maybeSideloadEntriesImpl noCmd [especEntry cexSpecA, especEntry cexSpecB]
        memEmpty
      = .ok ([especThin cexSpecA, especThin cexSpecB], 2,
             especPuts [cexSpecA, cexSpecB] memEmpty)
    ∧ inlineEntries 1 (especPuts [cexSpecA, cexSpecB] memEmpty) emptyCache
        [especThin cexSpecA, especThin cexSpecB]
      = .ok [especEntry cexSpecB, especEntry cexSpecB]
    ∧ especEntry cexSpecB ≠ especEntry cexSpecA := by decide

/-- C8 (confirmed): when the snapshot path inlines log entries and a
required sideloaded payload is absent from both the entry cache and the
sideload storage, the whole snapshot fails with the typed
`MustRetrySnapshotDueToTruncation` error; when every payload is present
the streamed entries come back with their payloads fully inlined. -/
theorem snapshot_inline_correct :
    (∀ (rangeID : Nat) (ss : InMemSideloadStorage) (cache : RaftEntryCache)
       (pre post : List Entry) (cmdID : Bytes) (i t crc : Nat),
       cmdID.length = raftCommandIDLen →
       (∀ p ∈ pre,
          ∃ r, maybeInlineSideloadedRaftCommand rangeID p ss cache = .ok r) →
       getCachedEntry rangeID i cache = none →
       memGet i t ss = .error errSideloadedFileNotFound →
       inlineSnapshotEntries rangeID ss cache
         (pre ++ entWithCmd .sideloaded cmdID i t ⟨some ⟨[], crc⟩⟩ :: post)
         = .error .mustRetrySnapshotDueToTruncation)
    ∧ (∀ (rangeID : Nat) (xs : List ESpec) (ss : InMemSideloadStorage),
       (∀ s ∈ xs, s.cmdID.length = raftCommandIDLen) →
       (∀ s ∈ xs, especGood s = true) →
       (∀ s ∈ xs, especSideloadable s = true →
          memGet s.index s.term ss = .ok (especPayload s)) →
       inlineSnapshotEntries rangeID ss emptyCache (xs.map especThin)
         = .ok (xs.map especEntry)) := by
  constructor
  · intro rangeID ss cache pre post cmdID i t crc hlen hpre hcache hget
    have he := maybeInline_thin_missing rangeID cmdID i t crc ss cache hlen
      hcache hget
    have hlist := inlineEntries_error rangeID ss cache pre post _ _ hpre he
    unfold inlineSnapshotEntries
    rw [hlist]
    rfl
  · intro rangeID xs ss hid hgood hpres
    have hlist := inlineEntries_especMap rangeID ss emptyCache xs
      (fun s hs => especThin_inlines rangeID s ss (hid s hs) (hgood s hs)
        (hpres s hs))
    unfold inlineSnapshotEntries
    rw [hlist]

/-- C8 witness: the thin entry at (5, 6) with empty cache and storage fails
the snapshot with the typed retry error; the two-entry batch with its
payload present streams fully inlined. -/
theorem snapshot_inline_correct_witness :
    getCachedEntry 1 5 emptyCache = none
    ∧ memGet 5 6 memEmpty = .error errSideloadedFileNotFound
    ∧ inlineSnapshotEntries 1 memEmpty emptyCache ([] ++ wThinEnt :: [])
      = .error .mustRetrySnapshotDueToTruncation
    ∧ especGood wFat = true
    ∧ memGet 13 99 (memPut 13 99 [102, 111, 111] memEmpty)
      = .ok (especPayload wFat)
    ∧ inlineSnapshotEntries 1 (memPut 13 99 [102, 111, 111] memEmpty)
        emptyCache ([wFat].map especThin) = .ok ([wFat].map especEntry) := by
  refine ⟨rfl, rfl, ?_, by decide, by decide, ?_⟩
  · exact snapshot_inline_correct.1 1 memEmpty emptyCache [] []
      (List.replicate raftCommandIDLen 120) 5 6 0 (by decide)
      (fun p hp => absurd hp (List.not_mem_nil p)) rfl rfl
  · exact snapshot_inline_correct.2 1 [wFat]
      (memPut 13 99 [102, 111, 111] memEmpty) (by decide) (by decide)
      (by decide)

end Sideload
